import Mathlib

/-!
Verification of the mutation controller in `src/use-mutation.ts`.

The source builds a controller around three shallow refs (`status`, `data`,
`error`), a `pendingPromise` variable used for race discrimination, a
`mutate(...args)` entry point and a `reset()` operation.  The user-supplied
`options.mutation` is external asynchronous code: the controller only reacts
to its settlements through the `.then`/`.catch` continuations attached in
`mutate`.  We embed the controller as a state machine:

* `MutState` holds the three refs, the identity of `pendingPromise`
  (promise identity is modelled by the index of the `mutate` call that
  created it, a fresh value per call), the arguments captured by each call,
  and the chronological log of `store.invalidateEntry` calls.
* `mutate`, `reset` are the synchronous bodies of the source functions.
* `settleChain` is the settlement of the promise chain
  `options.mutation(...args).then(h).catch(c)` built at lines 103-129 of the
  source: first the `.then` handler, then (when that stage rejected) the
  `.catch` handler.  It returns the new state together with the settlement
  of the promise that `mutate` returned to its caller.
* An `Event` trace drives the machine: a `mutate` call, the settlement of
  the i-th call inner mutation promise (value chosen by the environment,
  which therefore also chooses the interleaving), or a `reset` call.

A keys function in JavaScript may throw, so the function form of
`options.keys` is embedded as returning `Except`.  The cache store is
modelled by its observable effect on the controller: the ordered log of
keys submitted to `invalidateEntry`.
-/

namespace UseMutation

variable {P R E K : Type}

/-- Status values assigned in `use-mutation.ts`: the initializer and
`reset` use the literal `pending` (the idle state of the spec), `mutate`
sets `loading`, the settlement handlers set `success` and `error`.
(The type itself, `UseQueryStatus`, is imported from `query-store`; its
constructors are exactly the literals the source assigns.) -/
inductive UseQueryStatus where
  | pending
  | loading
  | success
  | error
  deriving DecidableEq, Repr

/-- The `keys` option (`_MutationKeys`): either a static array of keys or a
function `(result, ...args) => keys`.  The function form is JavaScript code
that may throw, hence the `Except` codomain. -/
inductive KeysSpec (P R E K : Type) where
  | static : List K → KeysSpec P R E K
  | fn : (R → P → Except E (List K)) → KeysSpec P R E K

/-- `UseMutationOptions`, restricted to the field that affects the
controller state: the optional `keys` invalidation spec.  The `mutation`
function itself is external async code; its settlements are supplied as
events. -/
structure Options (P R E K : Type) where
  keys : Option (KeysSpec P R E K)

/-- The controller state: the three shallow refs (`data` absent is
`undefined`, `error` absent is `null`, both embedded as `none`), the
identity of `pendingPromise` (`none` is the initial `null`; `some i` is the
promise returned by the i-th `mutate` call), the arguments captured by each
`mutate` call so far, and the ordered log of keys passed to
`store.invalidateEntry`. -/
structure MutState (P R E K : Type) where
  status : UseQueryStatus
  data : Option R
  error : Option E
  pendingId : Option Nat
  calls : List P
  log : List K
  deriving DecidableEq, Repr

/-- Construction state of the controller: `status = shallowRef('pending')`,
`data = shallowRef()`, `error = shallowRef(null)`, `pendingPromise = null`,
no calls issued, no invalidation performed. -/
def initState (P R E K : Type) : MutState P R E K :=
  { status := .pending, data := none, error := none
    pendingId := none, calls := [], log := [] }

/-- The `isLoading` computed projection: `status.value === 'loading'`. -/
def isLoading (s : MutState P R E K) : Bool :=
  match s.status with
  | .loading => true
  | _ => false

/-- Synchronous part of `mutate(...args)` (lines 99-103): sets status to
`loading` and replaces `pendingPromise` with the promise of this call,
whose identity is the index of the call. -/
def mutate (args : P) (s : MutState P R E K) : MutState P R E K :=
  { s with status := .loading
           pendingId := some s.calls.length
           calls := s.calls ++ [args] }

/-- Key resolution inside the `.then` handler (lines 111-114):
`typeof options.keys === 'function' ? options.keys(_data, ...args) :
options.keys`.  The function form may throw. -/
def resolveKeys (ks : KeysSpec P R E K) (r : R) (args : P) : Except E (List K) :=
  match ks with
  | .static l => .ok l
  | .fn f => f r args

/-- The `.then` handler (lines 105-122) run when the mutation of call `id`
fulfilled with `r`: if `pendingPromise` is still this call's promise, set
`data`, clear `error`, set status `success`, resolve the keys and submit
each to `store.invalidateEntry` in order; finally `return _data`.  A throw
of the keys function escapes after the state writes and before any
invalidation.  Superseded fulfillments fall through to `return _data`.
The second component is the settlement of the `.then` stage. -/
def thenHandler (opts : Options P R E K) (id : Nat) (args : P) (r : R)
    (s : MutState P R E K) : MutState P R E K × Except E R :=
  if s.pendingId = some id then
    let s1 : MutState P R E K :=
      { s with data := some r, error := none, status := .success }
    match opts.keys with
    | none => (s1, .ok r)
    | some ks =>
      match resolveKeys ks r args with
      | .ok l => ({ s1 with log := s1.log ++ l }, .ok r)
      | .error e => (s1, .error e)
  else
    (s, .ok r)

/-- The `.catch` handler (lines 123-129) run when the `.then` stage
rejected with `e`: if still the pending promise, record `error` and set
status `error`; in every case `throw _error` again. -/
def catchHandler (id : Nat) (e : E) (s : MutState P R E K) :
    MutState P R E K × Except E R :=
  if s.pendingId = some id then
    ({ s with error := some e, status := .error }, .error e)
  else
    (s, .error e)

/-- Settlement of the whole chain `options.mutation(...args).then(h).catch(c)`
for call `id` whose inner mutation settled with `o`: a fulfillment runs the
`.then` handler and, when that stage rejected (keys function threw), the
`.catch` handler on its outcome; a rejection of the mutation passes the
`.then` stage untouched and runs the `.catch` handler.  Returns the final
state and the settlement of the promise `mutate` returned. -/
def settleChain (opts : Options P R E K) (id : Nat) (args : P)
    (o : Except E R) (s : MutState P R E K) : MutState P R E K × Except E R :=
  match o with
  | .ok r =>
    let p := thenHandler opts id args r s
    match p.2 with
    | .ok r1 => (p.1, .ok r1)
    | .error e => catchHandler id e p.1
  | .error e => catchHandler id e s

/-- `reset()` (lines 134-138): clears `data` and `error`, sets status to
`pending` (the idle state); `pendingPromise` is not touched. -/
def reset (s : MutState P R E K) : MutState P R E K :=
  { s with data := none, error := none, status := .pending }

/-- Events driving the controller: a `mutate` call with its arguments, the
settlement of the i-th call inner mutation promise with outcome `o`, or a
`reset()` call.  The environment picks the order of settle events, which
models arbitrary settlement interleavings of the asynchronous mutations. -/
inductive Event (P R E : Type) where
  | mutate : P → Event P R E
  | settle : Nat → Except E R → Event P R E
  | reset : Event P R E

/-- Settlement dispatch: the handler closure of call `i` captured the
arguments of that call, recovered from the call list (which only grows).
A settle event for a call that was never issued settles no handler and is
a no-op on the state. -/
def settleRun (opts : Options P R E K) (i : Nat) (o : Except E R)
    (s : MutState P R E K) : MutState P R E K × Except E R :=
  match s.calls[i]? with
  | some args => settleChain opts i args o s
  | none => (s, o)

/-- One event step of the controller. -/
def step (opts : Options P R E K) (s : MutState P R E K) :
    Event P R E → MutState P R E K
  | .mutate args => mutate args s
  | .settle i o => (settleRun opts i o s).1
  | .reset => reset s

/-- Run of the controller from construction over a trace of events. -/
def run (opts : Options P R E K) (evs : List (Event P R E)) :
    MutState P R E K :=
  evs.foldl (step opts) (initState P R E K)

/-! Concrete instances used by witnesses and counterexamples. -/

/-- Options with no `keys` spec, at the concrete types of the witnesses. -/
def optsNone : Options Unit Nat String String := ⟨none⟩

/-- Options whose function-form `keys` spec throws the value "boom". -/
def optsThrow : Options Unit Nat String String :=
  ⟨some (.fn fun _ _ => .error "boom")⟩

/-- Options with the static keys list `[k1, k2]`. -/
def optsStatic : Options Unit Nat String String :=
  ⟨some (.static ["k1", "k2"])⟩

/-- Options whose keys function returns a list depending on the result. -/
def optsFn : Options Unit Nat String String :=
  ⟨some (.fn fun r _ => .ok (List.replicate r "k"))⟩

/-- State after a single `mutate` call, before its settlement. -/
def oneCall : MutState Unit Nat String String :=
  mutate () (initState Unit Nat String String)

/-- State after two `mutate` calls, the first one superseded. -/
def twoCalls : MutState Unit Nat String String := mutate () oneCall

/-! Helper lemmas about a single settlement.  The first group rewrites
`settleRun` and `settleChain` to closed forms, one per reachable branch of
the handlers; the field lemmas below are derived from them. -/

/-- Settlement dispatch for an issued call reduces to the chain settlement
with the arguments that call captured. -/
theorem settleRun_eq_chain (opts : Options P R E K) (s : MutState P R E K)
    (i : Nat) (a : P) (o : Except E R) (ha : s.calls[i]? = some a) :
    settleRun opts i o s = settleChain opts i a o s := by
  simp [settleRun, ha]

/-- A settlement of a superseded call (its promise is no longer the pending
one) changes nothing and still settles with its own outcome. -/
theorem settleRun_superseded (opts : Options P R E K) (s : MutState P R E K)
    (i : Nat) (o : Except E R) (hp : ¬ s.pendingId = some i) :
    settleRun opts i o s = (s, o) := by
  unfold settleRun
  cases hc : s.calls[i]? with
  | none => rfl
  | some a =>
    cases o with
    | ok r => simp [settleChain, thenHandler, hp]
    | error e => simp [settleChain, catchHandler, hp]

/-- An authoritative rejection records the error, sets status `error`,
touches nothing else, and rejects the returned promise with the same
reason. -/
theorem settleRun_error_eq (opts : Options P R E K) (s : MutState P R E K)
    (i : Nat) (a : P) (e : E) (ha : s.calls[i]? = some a)
    (hp : s.pendingId = some i) :
    settleRun opts i (.error e) s =
      ({ s with error := some e, status := .error }, .error e) := by
  simp [settleRun, ha, settleChain, catchHandler, hp]

/-- Authoritative fulfillment, no keys spec: record the result, clear the
error, status `success`, no invalidation, fulfill with the result. -/
theorem settleChain_ok_none (opts : Options P R E K) (s : MutState P R E K)
    (i : Nat) (a : P) (r : R) (hp : s.pendingId = some i)
    (hk : opts.keys = none) :
    settleChain opts i a (.ok r) s =
      ({ s with data := some r, error := none, status := .success }, .ok r) := by
  simp [settleChain, thenHandler, hp, hk]

/-- Authoritative fulfillment whose keys spec resolves to the list `l`:
record the result, clear the error, status `success`, submit each key of
`l` in order, fulfill with the result. -/
theorem settleChain_ok_keys (opts : Options P R E K) (s : MutState P R E K)
    (i : Nat) (a : P) (r : R) (ks : KeysSpec P R E K) (l : List K)
    (hp : s.pendingId = some i) (hk : opts.keys = some ks)
    (hrk : resolveKeys ks r a = .ok l) :
    settleChain opts i a (.ok r) s =
      ({ s with data := some r, error := none, status := .success,
                log := s.log ++ l }, .ok r) := by
  simp [settleChain, thenHandler, hp, hk, hrk]

/-- Authoritative fulfillment whose keys spec throws `e`: the success
writes happen, no key is submitted, then the catch handler (still
authoritative) overwrites `error` and status, and the returned promise
rejects with the thrown value. -/
theorem settleChain_ok_throw (opts : Options P R E K) (s : MutState P R E K)
    (i : Nat) (a : P) (r : R) (ks : KeysSpec P R E K) (e : E)
    (hp : s.pendingId = some i) (hk : opts.keys = some ks)
    (hrk : resolveKeys ks r a = .error e) :
    settleChain opts i a (.ok r) s =
      ({ s with data := some r, error := some e, status := .error },
        .error e) := by
  simp [settleChain, thenHandler, catchHandler, hp, hk, hrk]

/-- A settlement never changes which promise is the pending one: only
`mutate` writes `pendingPromise`. -/
theorem settleRun_pendingId (opts : Options P R E K) (s : MutState P R E K)
    (i : Nat) (o : Except E R) :
    (settleRun opts i o s).1.pendingId = s.pendingId := by
  by_cases hp : s.pendingId = some i
  · cases hc : s.calls[i]? with
    | none => simp [settleRun, hc]
    | some a =>
      rw [settleRun_eq_chain opts s i a o hc]
      cases o with
      | error e =>
        have h := settleRun_error_eq opts s i a e hc hp
        rw [settleRun_eq_chain opts s i a _ hc] at h
        rw [h]
      | ok r =>
        cases hk : opts.keys with
        | none => rw [settleChain_ok_none opts s i a r hp hk]
        | some ks =>
          cases hrk : resolveKeys ks r a with
          | ok l => rw [settleChain_ok_keys opts s i a r ks l hp hk hrk]
          | error e => rw [settleChain_ok_throw opts s i a r ks e hp hk hrk]
  · rw [settleRun_superseded opts s i o hp]

/-- A rejection of the mutation never submits any key to
`store.invalidateEntry`, authoritative or not. -/
theorem settleRun_error_log (opts : Options P R E K) (s : MutState P R E K)
    (i : Nat) (e : E) :
    (settleRun opts i (.error e) s).1.log = s.log := by
  by_cases hp : s.pendingId = some i
  · cases hc : s.calls[i]? with
    | none => simp [settleRun, hc]
    | some a => rw [settleRun_error_eq opts s i a e hc hp]
  · rw [settleRun_superseded opts s i _ hp]

/-- An authoritative fulfillment always records the result in `data`,
whatever the keys spec does afterwards. -/
theorem settleRun_ok_auth_data (opts : Options P R E K) (s : MutState P R E K)
    (i : Nat) (a : P) (r : R) (ha : s.calls[i]? = some a)
    (hp : s.pendingId = some i) :
    (settleRun opts i (.ok r) s).1.data = some r := by
  rw [settleRun_eq_chain opts s i a _ ha]
  cases hk : opts.keys with
  | none => rw [settleChain_ok_none opts s i a r hp hk]
  | some ks =>
    cases hrk : resolveKeys ks r a with
    | ok l => rw [settleChain_ok_keys opts s i a r ks l hp hk hrk]
    | error e => rw [settleChain_ok_throw opts s i a r ks e hp hk hrk]

/-- After an authoritative fulfillment the state either carries no error
(the normal outcome) or its status is `error` (the keys spec threw and the
catch handler ran). -/
theorem settleRun_ok_auth_error_cases (opts : Options P R E K)
    (s : MutState P R E K) (i : Nat) (a : P) (r : R)
    (ha : s.calls[i]? = some a) (hp : s.pendingId = some i) :
    (settleRun opts i (.ok r) s).1.error = none ∨
      (settleRun opts i (.ok r) s).1.status = .error := by
  rw [settleRun_eq_chain opts s i a _ ha]
  cases hk : opts.keys with
  | none =>
    rw [settleChain_ok_none opts s i a r hp hk]
    exact Or.inl rfl
  | some ks =>
    cases hrk : resolveKeys ks r a with
    | ok l =>
      rw [settleChain_ok_keys opts s i a r ks l hp hk hrk]
      exact Or.inl rfl
    | error e =>
      rw [settleChain_ok_throw opts s i a r ks e hp hk hrk]
      exact Or.inr rfl

/-! Claim theorems. -/

/-- C6: a freshly constructed controller, before any `mutate` call, has the
idle status (the literal `pending` of the source initializer, the idle
state of the spec), absent `data`, absent `error`, and `isLoading` false. -/
theorem C6_idle_default (P R E K : Type) :
    (initState P R E K).status = .pending ∧
    (initState P R E K).data = none ∧
    (initState P R E K).error = none ∧
    isLoading (initState P R E K) = false :=
  ⟨rfl, rfl, rfl, rfl⟩

/-- C10: `mutate` sets status to `loading` synchronously, before the
mutation promise settles (settlements are separate later events), so
`isLoading` becomes true, while `data` and `error` are left exactly as the
previous invocation left them: observers of the shared state still see the
previous values while the new call is in flight. -/
theorem C10_loading_keeps_previous (args : P) (s : MutState P R E K) :
    (mutate args s).status = .loading ∧
    isLoading (mutate args s) = true ∧
    (mutate args s).data = s.data ∧
    (mutate args s).error = s.error :=
  ⟨rfl, rfl, rfl, rfl⟩

/-- C9: an authoritative rejection with `e` makes the returned promise
reject with `e`, sets status to `error`, records `e` in the error field,
and leaves `data` (and every other field) exactly as before the failed
call: the result pair is the old state with only `error` and `status`
replaced. -/
theorem C9_failure_path (opts : Options P R E K) (s : MutState P R E K)
    (i : Nat) (a : P) (e : E) (ha : s.calls[i]? = some a)
    (hp : s.pendingId = some i) :
    settleRun opts i (.error e) s =
      ({ s with error := some e, status := .error }, .error e) :=
  settleRun_error_eq opts s i a e ha hp

/-- Witness for C9 at a concrete input: one call, mutation rejects with
"E". -/
theorem C9_failure_path_witness :
    settleRun optsNone 0 (.error "E") oneCall =
      ({ oneCall with error := some "E", status := .error }, .error "E") :=
  C9_failure_path optsNone oneCall 0 () "E" (by decide) (by decide)

/-- C4: with the static keys list `[k₁, k₂]`, an authoritative successful
settlement submits to `store.invalidateEntry` exactly the keys `k₁` then
`k₂`, appended once each and in that order to the invalidation log; a
rejected mutation submits no key at all. -/
theorem C4_static_keys (opts : Options P R E K) (k₁ k₂ : K)
    (s : MutState P R E K) (i : Nat) (a : P) (r : R) (e : E)
    (hk : opts.keys = some (.static [k₁, k₂]))
    (ha : s.calls[i]? = some a) :
    (s.pendingId = some i →
      (settleRun opts i (.ok r) s).1.log = s.log ++ [k₁, k₂]) ∧
    (settleRun opts i (.error e) s).1.log = s.log := by
  constructor
  · intro hp
    rw [settleRun_eq_chain opts s i a _ ha,
      settleChain_ok_keys opts s i a r _ [k₁, k₂] hp hk rfl]
  · exact settleRun_error_log opts s i e

/-- Witness for C4 at a concrete input: keys ["k1", "k2"], one call,
settled once with 7 and once with a rejection. -/
theorem C4_static_keys_witness :
    (settleRun optsStatic 0 (.ok 7) oneCall).1.log = oneCall.log ++ ["k1", "k2"] ∧
    (settleRun optsStatic 0 (.error "E") oneCall).1.log = oneCall.log := by
  have h := C4_static_keys optsStatic "k1" "k2" oneCall 0 () 7 "E" rfl (by decide)
  exact ⟨h.1 (by decide), h.2⟩

/-- C5: with a function-form keys spec `f`, an authoritative successful
settlement applies `f` to the resolved result `r` and the exact arguments
`a` captured by that call (the statement holds for every `f`, which pins
the arguments down), and appends the returned keys once, in order, to the
invalidation log; the returned promise still fulfills with the result. -/
theorem C5_function_keys (opts : Options P R E K)
    (f : R → P → Except E (List K)) (s : MutState P R E K)
    (i : Nat) (a : P) (r : R) (l : List K)
    (hk : opts.keys = some (.fn f))
    (ha : s.calls[i]? = some a)
    (hp : s.pendingId = some i)
    (hf : f r a = .ok l) :
    (settleRun opts i (.ok r) s).1.log = s.log ++ l ∧
    (settleRun opts i (.ok r) s).2 = .ok r := by
  rw [settleRun_eq_chain opts s i a _ ha,
    settleChain_ok_keys opts s i a r _ l hp hk hf]
  exact ⟨rfl, rfl⟩

/-- Witness for C5 at a concrete input: the keys function returns as many
copies of "k" as the result value; the call resolved with 2. -/
theorem C5_function_keys_witness :
    (settleRun optsFn 0 (.ok 2) oneCall).1.log = oneCall.log ++ ["k", "k"] ∧
    (settleRun optsFn 0 (.ok 2) oneCall).2 = .ok 2 :=
  C5_function_keys optsFn (fun r _ => .ok (List.replicate r "k")) oneCall
    0 () 2 ["k", "k"] rfl (by decide) (by decide) rfl

/-- C1: last initiated wins.  From any state, issue call A (index
`s.calls.length`, arguments `a₁`, later result `r₁`) and then, before A
settles, call B (index `s.calls.length + 1`, result `r₂`).  Then: A's
settlement alone changes nothing (first conjunct); B's settlement records
`r₂` (second); after both settle in the order A-then-B the data is `r₂`
(third); and in the order B-then-A, A's late settlement changes nothing
either, including the invalidation log (fourth, a full state equality), so
the data stays `r₂`. -/
theorem C1_last_initiated_wins (opts : Options P R E K)
    (s : MutState P R E K) (a₁ a₂ : P) (r₁ r₂ : R) :
    (settleRun opts s.calls.length (.ok r₁) (mutate a₂ (mutate a₁ s))).1
        = mutate a₂ (mutate a₁ s) ∧
    (settleRun opts (s.calls.length + 1) (.ok r₂)
        (mutate a₂ (mutate a₁ s))).1.data = some r₂ ∧
    (settleRun opts (s.calls.length + 1) (.ok r₂)
        ((settleRun opts s.calls.length (.ok r₁)
          (mutate a₂ (mutate a₁ s))).1)).1.data = some r₂ ∧
    (settleRun opts s.calls.length (.ok r₁)
        ((settleRun opts (s.calls.length + 1) (.ok r₂)
          (mutate a₂ (mutate a₁ s))).1)).1
      = (settleRun opts (s.calls.length + 1) (.ok r₂)
          (mutate a₂ (mutate a₁ s))).1 := by
  have hpend : (mutate a₂ (mutate a₁ s)).pendingId
      = some (s.calls.length + 1) := by
    simp [mutate]
  have hsup : ¬ (mutate a₂ (mutate a₁ s)).pendingId
      = some s.calls.length := by
    rw [hpend]; simp
  have hlen : (s.calls ++ [a₁]).length = s.calls.length + 1 := by simp
  have ha₂ : (mutate a₂ (mutate a₁ s)).calls[s.calls.length + 1]?
      = some a₂ := by
    show ((s.calls ++ [a₁]) ++ [a₂])[s.calls.length + 1]? = some a₂
    rw [← hlen]
    exact List.getElem?_concat_length _ _
  have h1 : (settleRun opts s.calls.length (.ok r₁)
      (mutate a₂ (mutate a₁ s))).1 = mutate a₂ (mutate a₁ s) := by
    rw [settleRun_superseded opts _ _ _ hsup]
  have h2 : (settleRun opts (s.calls.length + 1) (.ok r₂)
      (mutate a₂ (mutate a₁ s))).1.data = some r₂ :=
    settleRun_ok_auth_data opts _ _ a₂ r₂ ha₂ hpend
  have hBpend : ¬ (settleRun opts (s.calls.length + 1) (.ok r₂)
      (mutate a₂ (mutate a₁ s))).1.pendingId = some s.calls.length := by
    rw [settleRun_pendingId, hpend]; simp
  refine ⟨h1, h2, ?_, ?_⟩
  · rw [h1]; exact h2
  · rw [settleRun_superseded opts _ _ _ hBpend]

/-- C2 (amended): the promise `mutate` returns settles with the outcome of
that specific call in these cases — a mutation rejection always propagates
as the rejection of the returned promise (superseded or not); a superseded
fulfillment still fulfills the returned promise with its own result; an
authoritative fulfillment fulfills it with its own result provided the
keys resolution of the invalidation phase does not throw.  When the
authoritative invalidation phase throws, the returned promise instead
rejects with the invalidation error (see the counterexample). -/
theorem C2_own_outcome (opts : Options P R E K) (s : MutState P R E K)
    (i : Nat) (a : P) (r : R) (e : E) (ha : s.calls[i]? = some a) :
    ((settleRun opts i (.error e) s).2 = .error e) ∧
    (¬ s.pendingId = some i → (settleRun opts i (.ok r) s).2 = .ok r) ∧
    (s.pendingId = some i →
      (∀ ks, opts.keys = some ks → ∃ l, resolveKeys ks r a = .ok l) →
      (settleRun opts i (.ok r) s).2 = .ok r) := by
  refine ⟨?_, ?_, ?_⟩
  · by_cases hp : s.pendingId = some i
    · rw [settleRun_error_eq opts s i a e ha hp]
    · rw [settleRun_superseded opts s i _ hp]
  · intro hp
    rw [settleRun_superseded opts s i _ hp]
  · intro hp hks
    rw [settleRun_eq_chain opts s i a _ ha]
    cases hk : opts.keys with
    | none => rw [settleChain_ok_none opts s i a r hp hk]
    | some ks =>
      obtain ⟨l, hl⟩ := hks ks hk
      rw [settleChain_ok_keys opts s i a r ks l hp hk hl]

/-- Witness for C2 at concrete inputs: the first of two calls is
superseded, yet its promise rejects with its own reason "E" and fulfills
with its own result 5. -/
theorem C2_own_outcome_witness :
    (settleRun optsNone 0 (.error "E") twoCalls).2 = .error "E" ∧
    (settleRun optsNone 0 (.ok 5) twoCalls).2 = .ok 5 := by
  have h := C2_own_outcome optsNone twoCalls 0 () 5 "E" (by decide)
  exact ⟨h.1, h.2.1 (by decide)⟩

/-- C2 counterexample: the single call is authoritative and never
superseded, its mutation fulfills with 42, yet the promise `mutate`
returned rejects with the value "boom" thrown by the keys function during
the invalidation phase — neither this call's mutation result (a
fulfillment with 42) nor a mutation rejection reason (the mutation never
rejected). -/
theorem C2_counterexample :
    (settleRun optsThrow 0 (.ok 42) oneCall).2 = .error "boom" :=
  rfl

/-- C3: at the failing input — a single authoritative call whose mutation
fulfills with 42 while the function-form keys spec throws "boom" — the
success writes happen (`data` still holds 42), but the catch handler,
still finding itself authoritative, retroactively flips the status to
`error` and records the invalidation failure in `error`.  The claim (and
the doc comment of the `error` field in the source, which promises `null`
after a successful mutation) requires the status to remain `success`. -/
theorem C3_invalidation_throw_flips_status :
    (settleRun optsThrow 0 (.ok 42) oneCall).1.status = .error ∧
    (settleRun optsThrow 0 (.ok 42) oneCall).1.error = some "boom" ∧
    (settleRun optsThrow 0 (.ok 42) oneCall).1.data = some 42 :=
  ⟨rfl, rfl, rfl⟩

/-- C7: `reset` synchronously clears `data` and `error` and restores the
idle status (`pending`), while leaving `pendingPromise` untouched; hence
the most recently initiated pre-reset invocation is still authoritative
after the reset: its later fulfillment records its result in `data`, and
its later rejection records its reason and sets status `error`. -/
theorem C7_reset_keeps_token (opts : Options P R E K) (s : MutState P R E K)
    (i : Nat) (a : P) (r : R) (e : E) (ha : s.calls[i]? = some a) :
    (reset s).data = none ∧
    (reset s).error = none ∧
    (reset s).status = .pending ∧
    (reset s).pendingId = s.pendingId ∧
    (s.pendingId = some i →
      (settleRun opts i (.ok r) (reset s)).1.data = some r ∧
      (settleRun opts i (.error e) (reset s)).1.error = some e ∧
      (settleRun opts i (.error e) (reset s)).1.status = .error) := by
  refine ⟨rfl, rfl, rfl, rfl, ?_⟩
  intro hp
  have ha' : (reset s).calls[i]? = some a := ha
  have hp' : (reset s).pendingId = some i := hp
  refine ⟨settleRun_ok_auth_data opts (reset s) i a r ha' hp', ?_, ?_⟩
  · rw [settleRun_error_eq opts (reset s) i a e ha' hp']
  · rw [settleRun_error_eq opts (reset s) i a e ha' hp']

/-- Witness for C7 at a concrete input: one in-flight call, reset, then
the pre-reset call fulfills with 3 and still lands in `data`. -/
theorem C7_reset_keeps_token_witness :
    (reset oneCall).data = none ∧
    (reset oneCall).error = none ∧
    (reset oneCall).status = .pending ∧
    (reset oneCall).pendingId = oneCall.pendingId ∧
    (settleRun optsNone 0 (.ok 3) (reset oneCall)).1.data = some 3 := by
  have h := C7_reset_keeps_token optsNone oneCall 0 () 3 "E" (by decide)
  exact ⟨h.1, h.2.1, h.2.2.1, h.2.2.2.1, (h.2.2.2.2 (by decide)).1⟩

/-- One controller step preserves the exclusivity invariant: whenever the
status is `success`, the error field is absent. -/
theorem step_success_no_error (opts : Options P R E K) (s : MutState P R E K)
    (ev : Event P R E) (h : s.status = .success → s.error = none) :
    (step opts s ev).status = .success → (step opts s ev).error = none := by
  cases ev with
  | mutate a => intro hs; exact absurd hs (by simp [step, mutate])
  | reset => intro hs; exact absurd hs (by simp [step, reset])
  | settle i o =>
    simp only [step]
    by_cases hp : s.pendingId = some i
    · cases hc : s.calls[i]? with
      | none =>
        intro hs
        simp only [settleRun, hc] at hs ⊢
        exact h hs
      | some a =>
        cases o with
        | error e =>
          rw [settleRun_error_eq opts s i a e hc hp]
          intro hs
          exact absurd hs (by simp)
        | ok r =>
          rcases settleRun_ok_auth_error_cases opts s i a r hc hp with he | hst
          · intro _; exact he
          · intro hs
            rw [hst] at hs
            exact absurd hs (by decide)
    · rw [settleRun_superseded opts s i o hp]
      exact h

/-- Every run from a state satisfying the exclusivity invariant keeps
satisfying it. -/
theorem foldl_success_no_error (opts : Options P R E K)
    (evs : List (Event P R E)) (s : MutState P R E K)
    (h : s.status = .success → s.error = none) :
    (evs.foldl (step opts) s).status = .success →
      (evs.foldl (step opts) s).error = none := by
  induction evs generalizing s with
  | nil => exact h
  | cons ev evs ih => exact ih (step opts s ev) (step_success_no_error opts s ev h)

/-- C8 (amended): `data` and `error` are mutually exclusive as effects of
the current settlement, not as co-present fields — an authoritative
fulfillment records data and clears the error, so in every state reachable
by any sequence of calls, settlements and resets, a `success` status
guarantees an absent error; an authoritative rejection records the error
but deliberately keeps the stale data (see the counterexample, where both
fields are present at once); and `reset` clears both. -/
theorem C8_exclusive_current_settlement (opts : Options P R E K)
    (evs : List (Event P R E)) :
    ((run opts evs).status = .success → (run opts evs).error = none) ∧
    (reset (run opts evs)).data = none ∧
    (reset (run opts evs)).error = none :=
  ⟨foldl_success_no_error opts evs (initState P R E K)
      (fun hs => UseQueryStatus.noConfusion hs),
    rfl, rfl⟩

/-- Witness for C8 at a concrete input: after one successful settlement
the status is `success` and indeed no error is present; the reset state
has both fields cleared. -/
theorem C8_exclusive_current_settlement_witness :
    (run optsNone [.mutate (), .settle 0 (.ok 7)]).error = none ∧
    (reset (run optsNone [.mutate (), .settle 0 (.ok 7)])).data = none ∧
    (reset (run optsNone [.mutate (), .settle 0 (.ok 7)])).error = none := by
  have h := C8_exclusive_current_settlement optsNone
    [.mutate (), .settle 0 (.ok 7)]
  exact ⟨h.1 (by decide), h.2.1, h.2.2⟩

/-- C8 counterexample: the trace (mutate; fulfill with 1; mutate; reject
with "E") leaves `data = some 1` — recorded by the first, by now stale,
settlement — and `error = some "E"` — recorded by the second — present at
the same time: the fields themselves are not mutually exclusive across
settlements. -/
theorem C8_counterexample :
    (run optsNone
      [.mutate (), .settle 0 (.ok 1), .mutate (),
        .settle 1 (.error "E")]).data = some 1 ∧
    (run optsNone
      [.mutate (), .settle 0 (.ok 1), .mutate (),
        .settle 1 (.error "E")]).error = some "E" :=
  ⟨rfl, rfl⟩

end UseMutation
